import Mathlib

/-!
Verification development for the `axiom-marketplace` Solana program
(`src/infra/solana/programs/axiom-marketplace/src/lib.rs`).

The instruction bodies of the program are embedded as pure Lean functions.
Account records become structures, `Pubkey` is modelled as `Nat` (an abstract
identifier), `i64` timestamps are `Int`, and `u64` token amounts are `Nat`
(the SPL token gateway rejects a transfer whose source balance is too small,
so amounts never go negative and `u64` wrap-around is unreachable here).

Each instruction returns `Except MarketplaceError …`: a Solana instruction
either fully commits or aborts the whole transaction, so account writes that
precede a failing `transfer(..)?` call are discarded by the runtime; the
`Except`-style embedding encodes exactly that all-or-nothing commit.

The source passes the same `agent_mint` to both the settlement-currency
transfer and the NFT-delivery transfer; following spec §9, the embedding
keeps two distinct ledgers (a currency balance and an NFT balance per
custody account) so that the two transfers are not conflated.

`bump` fields (Anchor PDA derivation proofs) are carried as plain `Nat`
values; they take part in no program logic and are written as `0` where the
source writes `ctx.bumps.*`.
-/

namespace AxiomMarket

/-- `Currency` enum from the source. -/
inductive Currency where
  | SOL
  | USDC
  | AXIOM
deriving DecidableEq, Repr

/-- `ListingStatus` enum from the source. -/
inductive ListingStatus where
  | Active
  | Sold
  | Delisted
  | Paused
deriving DecidableEq, Repr

/-- `TransactionStatus` enum from the source. -/
inductive TransactionStatus where
  | Pending
  | Completed
  | Failed
  | Cancelled
  | Refunded
  | Disputed
deriving DecidableEq, Repr

/-- `EscrowStatus` enum from the source. -/
inductive EscrowStatus where
  | Active
  | Released
  | Refunded
  | Disputed
deriving DecidableEq, Repr

/-- `DisputeStatus` enum from the source. -/
inductive DisputeStatus where
  | Filed
  | UnderReview
  | Resolved
  | Dismissed
deriving DecidableEq, Repr

/-- `MarketplaceError` error codes from the source. -/
inductive MarketplaceError where
  | Unauthorized
  | InsufficientFunds
  | InvalidListing
  | ListingNotActive
  | TransactionAlreadyCompleted
  | InvalidEscrowState
  | RefundPeriodNotElapsed
  | InvalidDisputeStatus
deriving DecidableEq, Repr

/-- `AgentListing` account from the source (`Pubkey` fields as `Nat`). -/
structure AgentListing where
  seller : Nat
  mint : Nat
  price : Nat
  rent_price : Option Nat
  currency : Currency
  status : ListingStatus
  created_at : Int
  escrow_account : Option Nat
  bump : Nat
deriving DecidableEq, Repr

/-- `Transaction` account from the source. -/
structure Transaction where
  buyer : Nat
  seller : Nat
  listing : Nat
  amount : Nat
  currency : Currency
  status : TransactionStatus
  created_at : Int
  completed_at : Option Int
  escrow_release_time : Int
  dispute_deadline : Int
  bump : Nat
deriving DecidableEq, Repr

/-- `Escrow` account from the source. -/
structure Escrow where
  transaction : Nat
  amount : Nat
  currency : Currency
  status : EscrowStatus
  release_time : Int
  bump : Nat
deriving DecidableEq, Repr

/-- `Dispute` account from the source. -/
structure Dispute where
  transaction : Nat
  complainant : Nat
  respondent : Nat
  reason : String
  status : DisputeStatus
  created_at : Int
  resolved_at : Option Int
  resolution : Option String
  bump : Nat
deriving DecidableEq, Repr

/-- The currency and NFT balances of the three custody accounts an
instruction of this program can touch (buyer, seller and escrow token
accounts).  The `AssetTransferGateway` of spec §6 moves amounts between
them and rejects a transfer whose source balance is insufficient. -/
structure Balances where
  buyerCur : Nat
  sellerCur : Nat
  escrowCur : Nat
  buyerNft : Nat
  sellerNft : Nat
  escrowNft : Nat
deriving DecidableEq, Repr

/-- Embeds `create_listing` (lib.rs lines 333-385): initializes the listing
(Active) and its paired escrow (Active, amount 0, release_time 0), then
transfers 1 agent NFT from seller custody into escrow custody. -/
def create_listing (now : Int) (sellerKey escrowKey : Nat) (mint : Nat) (price : Nat)
    (currency : Currency) (rent_price : Option Nat) (bal : Balances) :
    Except MarketplaceError (AgentListing × Escrow × Balances) :=
  let listing : AgentListing :=
    { seller := sellerKey
      mint := mint
      price := price
      rent_price := rent_price
      currency := currency
      status := ListingStatus.Active
      created_at := now
      escrow_account := some escrowKey
      bump := 0 }
  let escrow : Escrow :=
    { transaction := 0  -- Pubkey::default(); set when purchase happens
      amount := 0
      currency := currency
      status := EscrowStatus.Active
      release_time := 0
      bump := 0 }
  -- Transfer agent NFT to escrow (amount 1)
  if 1 ≤ bal.sellerNft then
    Except.ok (listing, escrow,
      { bal with sellerNft := bal.sellerNft - 1, escrowNft := bal.escrowNft + 1 })
  else
    Except.error MarketplaceError.InsufficientFunds

/-- Embeds `purchase_agent` (lib.rs lines 387-457): requires
`listing.status == Active` (else `ListingNotActive`), initializes the
transaction (Pending, release window now+7d, dispute window now+3d), rebinds
the escrow to it, then transfers `listing.price` currency from buyer custody
into escrow custody and 1 NFT from escrow custody to the buyer.  The listing
record itself is returned unchanged: the source writes no new
`listing.status`. -/
def purchase_agent (now : Int) (buyerKey sellerKey txKey listingKey : Nat)
    (listing : AgentListing) (escrow : Escrow) (bal : Balances) :
    Except MarketplaceError (AgentListing × Escrow × Transaction × Balances) :=
  if listing.status ≠ ListingStatus.Active then
    Except.error MarketplaceError.ListingNotActive
  else
    let transaction : Transaction :=
      { buyer := buyerKey
        seller := sellerKey
        listing := listingKey
        amount := listing.price
        currency := listing.currency
        status := TransactionStatus.Pending
        created_at := now
        completed_at := none
        escrow_release_time := now + (7 * 24 * 60 * 60)  -- 7 days
        dispute_deadline := now + (3 * 24 * 60 * 60)  -- 3 days
        bump := 0 }
    let escrow : Escrow :=
      { escrow with
          transaction := txKey
          amount := listing.price
          currency := listing.currency
          release_time := transaction.escrow_release_time }
    -- Transfer funds to escrow (settlement currency, amount listing.price)
    if listing.price ≤ bal.buyerCur then
      let bal :=
        { bal with
            buyerCur := bal.buyerCur - listing.price
            escrowCur := bal.escrowCur + listing.price }
      -- Transfer NFT to buyer (amount 1)
      if 1 ≤ bal.escrowNft then
        Except.ok (listing, escrow, transaction,
          { bal with escrowNft := bal.escrowNft - 1, buyerNft := bal.buyerNft + 1 })
      else
        Except.error MarketplaceError.InsufficientFunds
    else
      Except.error MarketplaceError.InsufficientFunds

/-- Embeds `complete_transaction` (lib.rs lines 459-513): requires
`transaction.status == Pending` (else `TransactionAlreadyCompleted`) and
`current_time >= escrow.release_time` (else `RefundPeriodNotElapsed`); then
sets the transaction Completed (completed_at = now), the escrow Released,
and transfers `escrow.amount` currency from escrow custody to the seller.
The source reads no `escrow.status` here. -/
def complete_transaction (current_time : Int) (transaction : Transaction)
    (escrow : Escrow) (bal : Balances) :
    Except MarketplaceError (Transaction × Escrow × Balances) :=
  if transaction.status ≠ TransactionStatus.Pending then
    Except.error MarketplaceError.TransactionAlreadyCompleted
  else if current_time < escrow.release_time then
    Except.error MarketplaceError.RefundPeriodNotElapsed
  else
    let transaction :=
      { transaction with
          status := TransactionStatus.Completed
          completed_at := some current_time }
    let escrow := { escrow with status := EscrowStatus.Released }
    -- Transfer funds from escrow to seller (amount escrow.amount)
    if escrow.amount ≤ bal.escrowCur then
      Except.ok (transaction, escrow,
        { bal with
            escrowCur := bal.escrowCur - escrow.amount
            sellerCur := bal.sellerCur + escrow.amount })
    else
      Except.error MarketplaceError.InsufficientFunds

/-- Embeds `file_dispute` (lib.rs lines 515-556): requires
`transaction.status == Completed` (else `TransactionAlreadyCompleted`) and
`current_time <= transaction.dispute_deadline` (else
`InvalidDisputeStatus`); then initializes the dispute (Filed, respondent =
transaction.seller) and sets the transaction Disputed. -/
def file_dispute (current_time : Int) (complainantKey txKey : Nat) (reason : String)
    (transaction : Transaction) :
    Except MarketplaceError (Transaction × Dispute) :=
  if transaction.status ≠ TransactionStatus.Completed then
    Except.error MarketplaceError.TransactionAlreadyCompleted
  else if transaction.dispute_deadline < current_time then
    Except.error MarketplaceError.InvalidDisputeStatus
  else
    let dispute : Dispute :=
      { transaction := txKey
        complainant := complainantKey
        respondent := transaction.seller  -- Seller is the respondent
        reason := reason
        status := DisputeStatus.Filed
        created_at := current_time
        resolved_at := none
        resolution := none
        bump := 0 }
    Except.ok ({ transaction with status := TransactionStatus.Disputed }, dispute)

/-- Embeds `resolve_dispute` (lib.rs lines 558-598): requires
`dispute.status == UnderReview` (else `InvalidDisputeStatus`); then marks
the dispute Resolved and, if `favor_complainant`, sets the transaction
Refunded with completed_at = now — the source's compensating transfer back
to the buyer is only a comment, so the balances are returned unchanged on
both branches; otherwise sets the transaction Completed. -/
def resolve_dispute (current_time : Int) (resolution : String)
    (favor_complainant : Bool) (transaction : Transaction) (dispute : Dispute)
    (bal : Balances) :
    Except MarketplaceError (Transaction × Dispute × Balances) :=
  if dispute.status ≠ DisputeStatus.UnderReview then
    Except.error MarketplaceError.InvalidDisputeStatus
  else
    let dispute :=
      { dispute with
          status := DisputeStatus.Resolved
          resolved_at := some current_time
          resolution := some resolution }
    if favor_complainant then
      -- Refund buyer: the funds transfer is left as a comment in the source
      Except.ok
        ({ transaction with
             status := TransactionStatus.Refunded
             completed_at := some current_time },
         dispute, bal)
    else
      Except.ok ({ transaction with status := TransactionStatus.Completed }, dispute, bal)

/-- Embeds `release_escrow` (lib.rs lines 600-642): requires
`escrow.status == Active` (else `InvalidEscrowState`) and
`current_time >= escrow.release_time` (else `RefundPeriodNotElapsed`); then
sets the escrow Released and transfers `escrow.amount` currency from escrow
custody to the seller.  The transaction record is returned unchanged: the
source writes no transaction field here. -/
def release_escrow (current_time : Int) (transaction : Transaction)
    (escrow : Escrow) (bal : Balances) :
    Except MarketplaceError (Transaction × Escrow × Balances) :=
  if escrow.status ≠ EscrowStatus.Active then
    Except.error MarketplaceError.InvalidEscrowState
  else if current_time < escrow.release_time then
    Except.error MarketplaceError.RefundPeriodNotElapsed
  else
    let escrow := { escrow with status := EscrowStatus.Released }
    -- Transfer funds to seller (amount escrow.amount)
    if escrow.amount ≤ bal.escrowCur then
      Except.ok (transaction, escrow,
        { bal with
            escrowCur := bal.escrowCur - escrow.amount
            sellerCur := bal.sellerCur + escrow.amount })
    else
      Except.error MarketplaceError.InsufficientFunds

/-- Embeds `cancel_listing` (lib.rs lines 644-673): requires
`listing.status == Active` (else `ListingNotActive`); then sets the listing
Delisted and returns 1 NFT from escrow custody to the seller. -/
def cancel_listing (listing : AgentListing) (bal : Balances) :
    Except MarketplaceError (AgentListing × Balances) :=
  if listing.status ≠ ListingStatus.Active then
    Except.error MarketplaceError.ListingNotActive
  else
    let listing := { listing with status := ListingStatus.Delisted }
    -- Return NFT to seller (amount 1)
    if 1 ≤ bal.escrowNft then
      Except.ok (listing,
        { bal with escrowNft := bal.escrowNft - 1, sellerNft := bal.sellerNft + 1 })
    else
      Except.error MarketplaceError.InsufficientFunds

/-- The single-key-tuple world the core operations act on: at most one live
record per derived key (spec §3), so one listing, its paired escrow, the
transaction derived from it, and that transaction's dispute, together with
the custody balances and the clock reading of the last committed call
(spec §6 clock oracle: monotonically increasing "now" at call time). -/
structure MarketState where
  listing : Option AgentListing
  escrow : Option Escrow
  transaction : Option Transaction
  dispute : Option Dispute
  bal : Balances
  clock : Int
deriving DecidableEq, Repr

/-- The state before any core call: no records exist yet. -/
def initState (t0 : Int) (b0 : Balances) : MarketState :=
  { listing := none
    escrow := none
    transaction := none
    dispute := none
    bal := b0
    clock := t0 }

/-- A core call together with its arguments and the clock reading supplied
by the clock oracle at call time. -/
inductive Call where
  | createListing (now : Int) (sellerKey escrowKey mint price : Nat)
      (currency : Currency) (rent_price : Option Nat)
  | purchaseAgent (now : Int) (buyerKey sellerKey txKey listingKey : Nat)
  | completeTransaction (now : Int)
  | fileDispute (now : Int) (complainantKey txKey : Nat) (reason : String)
  | resolveDispute (now : Int) (resolution : String) (favor_complainant : Bool)
  | releaseEscrow (now : Int)
  | cancelListing (now : Int)
deriving DecidableEq, Repr

/-- The clock reading a call executes at. -/
def Call.now : Call → Int
  | .createListing t _ _ _ _ _ _ => t
  | .purchaseAgent t _ _ _ _ => t
  | .completeTransaction t => t
  | .fileDispute t _ _ _ => t
  | .resolveDispute t _ _ => t
  | .releaseEscrow t => t
  | .cancelListing t => t

/-- World-level semantics of one call: `none` when a record the call's
account list requires is absent (or, for the creating calls, already
present — the derived key addressing of spec §3 admits at most one live
record per key tuple, so account initialization fails on an existing
record); otherwise the instruction's own result, with the touched records
written back on success. -/
def exec : Call → MarketState → Option (Except MarketplaceError MarketState)
  | .createListing now sk ek mint price cur rp, st =>
    match st.listing, st.escrow with
    | none, none =>
      some (match create_listing now sk ek mint price cur rp st.bal with
        | .ok (l, e, b) =>
          .ok { st with listing := some l, escrow := some e, bal := b, clock := now }
        | .error er => .error er)
    | _, _ => none
  | .purchaseAgent now bk sk tk lk, st =>
    match st.listing, st.escrow, st.transaction with
    | some l0, some e0, none =>
      some (match purchase_agent now bk sk tk lk l0 e0 st.bal with
        | .ok (l, e, t, b) =>
          .ok { st with listing := some l, escrow := some e, transaction := some t,
                        bal := b, clock := now }
        | .error er => .error er)
    | _, _, _ => none
  | .completeTransaction now, st =>
    match st.transaction, st.escrow with
    | some t0, some e0 =>
      some (match complete_transaction now t0 e0 st.bal with
        | .ok (t, e, b) =>
          .ok { st with transaction := some t, escrow := some e, bal := b, clock := now }
        | .error er => .error er)
    | _, _ => none
  | .fileDispute now ck tk r, st =>
    match st.transaction, st.dispute with
    | some t0, none =>
      some (match file_dispute now ck tk r t0 with
        | .ok (t, d) =>
          .ok { st with transaction := some t, dispute := some d, clock := now }
        | .error er => .error er)
    | _, _ => none
  | .resolveDispute now res fav, st =>
    match st.transaction, st.dispute with
    | some t0, some d0 =>
      some (match resolve_dispute now res fav t0 d0 st.bal with
        | .ok (t, d, b) =>
          .ok { st with transaction := some t, dispute := some d, bal := b, clock := now }
        | .error er => .error er)
    | _, _ => none
  | .releaseEscrow now, st =>
    match st.transaction, st.escrow with
    | some t0, some e0 =>
      some (match release_escrow now t0 e0 st.bal with
        | .ok (t, e, b) =>
          .ok { st with transaction := some t, escrow := some e, bal := b, clock := now }
        | .error er => .error er)
    | _, _ => none
  | .cancelListing now, st =>
    match st.listing with
    | some l0 =>
      some (match cancel_listing l0 st.bal with
        | .ok (l, b) =>
          .ok { st with listing := some l, bal := b, clock := now }
        | .error er => .error er)
    | _ => none

/-- The state a caller observes after a call: the new state when the call
commits, the unchanged starting state when it aborts (spec §7: every error
discards all writes and gateway calls of the call together). -/
def run (c : Call) (st : MarketState) : MarketState :=
  match exec c st with
  | some (Except.ok st') => st'
  | _ => st

/-- One committed call, taken at a clock reading no earlier than the last
committed call's (the clock oracle is monotone). -/
def Step (st st' : MarketState) : Prop :=
  ∃ c : Call, st.clock ≤ c.now ∧ exec c st = some (Except.ok st')

/-- States reachable from the empty initial state by committed core calls. -/
inductive Reachable (t0 : Int) (b0 : Balances) : MarketState → Prop where
  | init : Reachable t0 b0 (initState t0 b0)
  | step {st st' : MarketState} : Reachable t0 b0 st → Step st st' → Reachable t0 b0 st'

/-- Decidable equality of instruction results, so concrete scenarios can be
settled by `decide`. -/
instance {ε α : Type} [DecidableEq ε] [DecidableEq α] : DecidableEq (Except ε α) :=
  fun x y =>
    match x, y with
    | Except.ok u, Except.ok v =>
      if h : u = v then Decidable.isTrue (by rw [h])
      else Decidable.isFalse (by intro hc; injection hc; exact h (by assumption))
    | Except.ok _, Except.error _ => Decidable.isFalse (by intro hc; exact Except.noConfusion hc)
    | Except.error _, Except.ok _ => Decidable.isFalse (by intro hc; exact Except.noConfusion hc)
    | Except.error u, Except.error v =>
      if h : u = v then Decidable.isTrue (by rw [h])
      else Decidable.isFalse (by intro hc; injection hc; exact h (by assumption))

/-! Concrete scenario records (price and escrow amount 1000, purchase at
t = 0, so release_time 604800 and dispute_deadline 259200). -/

/-- A pending transaction as `purchase_agent` creates it at t = 0. -/
def scTx : Transaction :=
  { buyer := 10, seller := 11, listing := 1, amount := 1000
    currency := Currency.SOL, status := TransactionStatus.Pending
    created_at := 0, completed_at := none
    escrow_release_time := 604800, dispute_deadline := 259200, bump := 0 }

/-- The escrow paired with `scTx` after the purchase funded it. -/
def scEsc : Escrow :=
  { transaction := 3, amount := 1000, currency := Currency.SOL
    status := EscrowStatus.Active, release_time := 604800, bump := 0 }

/-- `scEsc` after a successful release. -/
def scEscR : Escrow := { scEsc with status := EscrowStatus.Released }

/-- Custody balances in which the escrow token account holds 2000 (its 1000
of escrowed settlement currency plus a 1000 pre-existing balance). -/
def scBalRich : Balances :=
  { buyerCur := 0, sellerCur := 0, escrowCur := 2000
    buyerNft := 1, sellerNft := 0, escrowNft := 0 }

/-- Custody balances in which the escrow token account holds exactly the
escrowed 1000. -/
def scBalExact : Balances :=
  { buyerCur := 0, sellerCur := 0, escrowCur := 1000
    buyerNft := 1, sellerNft := 0, escrowNft := 0 }

/-- C1.  The claimed at-most-once release fails on the code:
`release_escrow` leaves the transaction record untouched (still Pending), so
a later `complete_transaction` on the same escrow passes its only status
gate and transfers `escrow.amount` to the seller a second time whenever the
escrow token account can cover it (seller custody ends at 2000 after the two
calls); with an exactly-funded escrow account the later call still passes
both status gates and aborts only with `InsufficientFunds` at the gateway,
not with the `InvalidEscrowState`/`TransactionAlreadyCompleted` the claim
requires. -/
theorem C1_release_then_complete_pays_twice :
    release_escrow 604800 scTx scEsc scBalRich =
      Except.ok (scTx, scEscR,
        { buyerCur := 0, sellerCur := 1000, escrowCur := 1000
          buyerNft := 1, sellerNft := 0, escrowNft := 0 }) ∧
    complete_transaction 604800 scTx scEscR
        { buyerCur := 0, sellerCur := 1000, escrowCur := 1000
          buyerNft := 1, sellerNft := 0, escrowNft := 0 } =
      Except.ok
        ({ scTx with status := TransactionStatus.Completed, completed_at := some 604800 },
         scEscR,
         { buyerCur := 0, sellerCur := 2000, escrowCur := 0
           buyerNft := 1, sellerNft := 0, escrowNft := 0 }) ∧
    release_escrow 604800 scTx scEsc scBalExact =
      Except.ok (scTx, scEscR,
        { buyerCur := 0, sellerCur := 1000, escrowCur := 0
          buyerNft := 1, sellerNft := 0, escrowNft := 0 }) ∧
    complete_transaction 604800 scTx scEscR
        { buyerCur := 0, sellerCur := 1000, escrowCur := 0
          buyerNft := 1, sellerNft := 0, escrowNft := 0 } =
      Except.error MarketplaceError.InsufficientFunds := by
  refine ⟨?_, ?_, ?_, ?_⟩ <;> decide

/-- The listing as `create_listing` makes it (seller 11, price 1000). -/
def scListing : AgentListing :=
  { seller := 11, mint := 7, price := 1000, rent_price := none
    currency := Currency.SOL, status := ListingStatus.Active
    created_at := 0, escrow_account := some 2, bump := 0 }

/-- The empty escrow paired with `scListing` before any purchase. -/
def scEsc0 : Escrow :=
  { transaction := 0, amount := 0, currency := Currency.SOL
    status := EscrowStatus.Active, release_time := 0, bump := 0 }

/-- Custody balances right after `create_listing`: the buyer holds 2000
currency and the escrow holds the 1 listed NFT. -/
def scBal0 : Balances :=
  { buyerCur := 2000, sellerCur := 0, escrowCur := 0
    buyerNft := 0, sellerNft := 0, escrowNft := 1 }

/-- C2.  The claimed double-purchase protection fails on the code:
`purchase_agent` writes no new `listing.status`, so a successful purchase
returns the listing still Active (first conjunct: the listing record in the
result is `scListing` itself, and its status is Active), and a second
`purchase_agent` on that same listing is not stopped by the
`ListingNotActive` gate — it aborts only with `InsufficientFunds` at the
NFT-delivery transfer, because the asset already left escrow custody. -/
theorem C2_second_purchase_not_blocked :
    purchase_agent 0 10 11 3 1 scListing scEsc0 scBal0 =
      Except.ok (scListing, scEsc, scTx,
        { buyerCur := 1000, sellerCur := 0, escrowCur := 1000
          buyerNft := 1, sellerNft := 0, escrowNft := 0 }) ∧
    scListing.status = ListingStatus.Active ∧
    purchase_agent 5 10 11 3 1 scListing scEsc
        { buyerCur := 1000, sellerCur := 0, escrowCur := 1000
          buyerNft := 1, sellerNft := 0, escrowNft := 0 } =
      Except.error MarketplaceError.InsufficientFunds ∧
    purchase_agent 5 10 11 3 1 scListing scEsc
        { buyerCur := 1000, sellerCur := 0, escrowCur := 1000
          buyerNft := 1, sellerNft := 0, escrowNft := 0 } ≠
      Except.error MarketplaceError.ListingNotActive := by
  refine ⟨?_, ?_, ?_, ?_⟩ <;> decide

/-- `scTx` marked Disputed, as it would stand while its dispute is open. -/
def scTxDisputed : Transaction := { scTx with status := TransactionStatus.Disputed }

/-- A dispute over `scTx` in the UnderReview state `resolve_dispute`
requires. -/
def scDispUR : Dispute :=
  { transaction := 3, complainant := 10, respondent := 11, reason := "bad agent"
    status := DisputeStatus.UnderReview, created_at := 100
    resolved_at := none, resolution := none, bump := 0 }

/-- C3.  The claimed compensating transfer fails on the code: with
`favor_complainant = true`, `resolve_dispute` does set the transaction
Refunded with `completed_at = now`, but the refund transfer exists only as a
source comment, so the balances come back identical — the buyer's custody
is not increased by the disputed amount (1000).  The
`favor_complainant = false` half behaves as claimed: status Completed and no
fund movement. -/
theorem C3_favor_complainant_moves_no_funds :
    resolve_dispute 200 "refund the buyer" true scTxDisputed scDispUR scBalExact =
      Except.ok
        ({ scTxDisputed with
             status := TransactionStatus.Refunded, completed_at := some 200 },
         { scDispUR with
             status := DisputeStatus.Resolved, resolved_at := some 200
             resolution := some "refund the buyer" },
         scBalExact) ∧
    scBalExact.buyerCur = 0 ∧ scTxDisputed.amount = 1000 ∧
    resolve_dispute 200 "keep the sale" false scTxDisputed scDispUR scBalExact =
      Except.ok
        ({ scTxDisputed with status := TransactionStatus.Completed },
         { scDispUR with
             status := DisputeStatus.Resolved, resolved_at := some 200
             resolution := some "keep the sale" },
         scBalExact) := by
  refine ⟨?_, ?_, ?_, ?_⟩ <;> decide

/-- C4.  `complete_transaction` behaves as claimed: it fails with
`TransactionAlreadyCompleted` whenever the transaction is not Pending; on a
Pending transaction it fails with `RefundPeriodNotElapsed` whenever
`now < escrow.release_time`; and otherwise (with the escrow custody able to
cover the held amount, as a funded escrow is) it succeeds, marking the
transaction Completed with `completed_at = now`, the escrow Released, and
moving exactly `escrow.amount` currency from escrow custody to the
seller. -/
theorem C4_complete_transaction_spec :
    (∀ (now : Int) (t : Transaction) (e : Escrow) (b : Balances),
       t.status ≠ TransactionStatus.Pending →
       complete_transaction now t e b =
         Except.error MarketplaceError.TransactionAlreadyCompleted) ∧
    (∀ (now : Int) (t : Transaction) (e : Escrow) (b : Balances),
       t.status = TransactionStatus.Pending → now < e.release_time →
       complete_transaction now t e b =
         Except.error MarketplaceError.RefundPeriodNotElapsed) ∧
    (∀ (now : Int) (t : Transaction) (e : Escrow) (b : Balances),
       t.status = TransactionStatus.Pending → e.release_time ≤ now →
       e.amount ≤ b.escrowCur →
       complete_transaction now t e b =
         Except.ok
           ({ t with status := TransactionStatus.Completed, completed_at := some now },
            { e with status := EscrowStatus.Released },
            { b with escrowCur := b.escrowCur - e.amount,
                     sellerCur := b.sellerCur + e.amount })) := by
  refine ⟨?_, ?_, ?_⟩
  · intro now t e b h
    simp [complete_transaction, h]
  · intro now t e b h1 h2
    simp [complete_transaction, h1, h2]
  · intro now t e b h1 h2 h3
    simp [complete_transaction, h1, not_lt.mpr h2, h3]

/-- Witness for C4, on the spec's scenario (purchase at t = 0, price 1000):
at t = 259199 the call fails `RefundPeriodNotElapsed`; at t = 604800 it
succeeds, moves exactly 1000 to the seller and sets the statuses; on an
already-Completed transaction it fails `TransactionAlreadyCompleted`. -/
theorem C4_complete_transaction_spec_witness :
    complete_transaction 259199 scTx scEsc scBalExact =
      Except.error MarketplaceError.RefundPeriodNotElapsed ∧
    complete_transaction 604800 scTx scEsc scBalExact =
      Except.ok
        ({ scTx with status := TransactionStatus.Completed, completed_at := some 604800 },
         { scEsc with status := EscrowStatus.Released },
         { scBalExact with escrowCur := scBalExact.escrowCur - scEsc.amount,
                           sellerCur := scBalExact.sellerCur + scEsc.amount }) ∧
    complete_transaction 259199 { scTx with status := TransactionStatus.Completed }
        scEsc scBalExact =
      Except.error MarketplaceError.TransactionAlreadyCompleted :=
  ⟨C4_complete_transaction_spec.2.1 259199 scTx scEsc scBalExact rfl (by decide),
   C4_complete_transaction_spec.2.2 604800 scTx scEsc scBalExact rfl (by decide) (by decide),
   C4_complete_transaction_spec.1 259199 _ scEsc scBalExact (by decide)⟩

/-- C5.  A successful `purchase_agent` at time `now` creates a Pending
transaction whose amount and currency are the listing's price and currency,
with `escrow_release_time = now + 604800` and
`dispute_deadline = now + 259200`, and rebinds the escrow to that
transaction with the listing's price and currency and the transaction's
release time (the escrow's previous status is untouched, and the listing
record is returned unchanged). -/
theorem C5_purchase_agent_effects :
    ∀ (now : Int) (bk sk tk lk : Nat) (l0 : AgentListing) (e0 : Escrow) (b0 : Balances)
      (l : AgentListing) (e : Escrow) (t : Transaction) (b : Balances),
      purchase_agent now bk sk tk lk l0 e0 b0 = Except.ok (l, e, t, b) →
      t.status = TransactionStatus.Pending ∧
      t.amount = l0.price ∧ t.currency = l0.currency ∧
      t.created_at = now ∧
      t.escrow_release_time = now + 604800 ∧
      t.dispute_deadline = now + 259200 ∧
      e.transaction = tk ∧ e.amount = l0.price ∧ e.currency = l0.currency ∧
      e.release_time = t.escrow_release_time ∧
      e.status = e0.status ∧ l = l0 := by
  intro now bk sk tk lk l0 e0 b0 l e t b h
  simp only [purchase_agent] at h
  split at h
  · exact absurd h (by simp)
  · split at h
    · split at h
      · simp only [Except.ok.injEq, Prod.mk.injEq] at h
        obtain ⟨h1, h2, h3, h4⟩ := h
        subst h1; subst h2; subst h3; subst h4
        refine ⟨rfl, rfl, rfl, rfl, by norm_num, by norm_num, rfl, rfl, rfl,
          by norm_num, rfl, rfl⟩
      · exact absurd h (by simp)
    · exact absurd h (by simp)

/-- Witness for C5: the concrete purchase at t = 0 of the price-1000 listing
exists and yields exactly the claimed transaction and escrow fields. -/
theorem C5_purchase_agent_effects_witness :
    scTx.status = TransactionStatus.Pending ∧
    scTx.amount = scListing.price ∧ scTx.currency = scListing.currency ∧
    scTx.created_at = 0 ∧
    scTx.escrow_release_time = 0 + 604800 ∧
    scTx.dispute_deadline = 0 + 259200 ∧
    scEsc.transaction = 3 ∧ scEsc.amount = scListing.price ∧
    scEsc.currency = scListing.currency ∧
    scEsc.release_time = scTx.escrow_release_time ∧
    scEsc.status = scEsc0.status ∧ scListing = scListing :=
  C5_purchase_agent_effects 0 10 11 3 1 scListing scEsc0 scBal0 scListing scEsc scTx
    { buyerCur := 1000, sellerCur := 0, escrowCur := 1000
      buyerNft := 1, sellerNft := 0, escrowNft := 0 }
    (by decide)

/-- C6.  `file_dispute` behaves as claimed: it fails whenever the
transaction is not Completed (in particular on a still-Pending one), fails
whenever `now` is past the dispute deadline, and a success implies the
transaction was Completed with `now ≤ dispute_deadline`, creates the dispute
Filed with the caller as complainant and the transaction's seller as
respondent, and marks the transaction Disputed. -/
theorem C6_file_dispute_spec :
    (∀ (now : Int) (ck tk : Nat) (r : String) (t : Transaction),
       t.status ≠ TransactionStatus.Completed →
       file_dispute now ck tk r t =
         Except.error MarketplaceError.TransactionAlreadyCompleted) ∧
    (∀ (now : Int) (ck tk : Nat) (r : String) (t : Transaction),
       t.status = TransactionStatus.Completed → t.dispute_deadline < now →
       file_dispute now ck tk r t = Except.error MarketplaceError.InvalidDisputeStatus) ∧
    (∀ (now : Int) (ck tk : Nat) (r : String) (t0 t : Transaction) (d : Dispute),
       file_dispute now ck tk r t0 = Except.ok (t, d) →
       t0.status = TransactionStatus.Completed ∧ now ≤ t0.dispute_deadline ∧
       d.status = DisputeStatus.Filed ∧ d.complainant = ck ∧
       d.respondent = t0.seller ∧ d.transaction = tk ∧
       t = { t0 with status := TransactionStatus.Disputed }) := by
  refine ⟨?_, ?_, ?_⟩
  · intro now ck tk r t h
    simp [file_dispute, h]
  · intro now ck tk r t h1 h2
    simp [file_dispute, h1, h2]
  · intro now ck tk r t0 t d h
    simp only [file_dispute] at h
    split at h
    · exact absurd h (by simp)
    · rename_i hst
      split at h
      · exact absurd h (by simp)
      · rename_i hdl
        simp only [Except.ok.injEq, Prod.mk.injEq] at h
        obtain ⟨h1, h2⟩ := h
        subst h1; subst h2
        exact ⟨not_not.mp (by simpa using hst), not_lt.mp hdl, rfl, rfl, rfl, rfl, rfl⟩

/-- `scTx` as it would stand once Completed. -/
def scTxCompleted : Transaction := { scTx with status := TransactionStatus.Completed }

/-- The dispute `file_dispute` files at t = 100 against `scTxCompleted`. -/
def scDisputeFiled : Dispute :=
  { transaction := 3, complainant := 10, respondent := 11
    reason := "not as described", status := DisputeStatus.Filed, created_at := 100
    resolved_at := none, resolution := none, bump := 0 }

/-- Witness for C6: the spec's t = 300000 call on the still-Pending `scTx`
fails its status precondition, and a concrete successful filing (Completed
transaction, inside the deadline) yields a Filed dispute whose respondent is
the transaction's seller and whose complainant is the caller. -/
theorem C6_file_dispute_spec_witness :
    file_dispute 300000 10 3 "late delivery" scTx =
      Except.error MarketplaceError.TransactionAlreadyCompleted ∧
    scDisputeFiled.status = DisputeStatus.Filed ∧
    scDisputeFiled.respondent = scTxCompleted.seller ∧
    scDisputeFiled.complainant = 10 := by
  have h : file_dispute 100 10 3 "not as described" scTxCompleted =
      Except.ok ({ scTxCompleted with status := TransactionStatus.Disputed },
        scDisputeFiled) := by decide
  obtain ⟨-, -, h3, h4, h5, -, -⟩ :=
    C6_file_dispute_spec.2.2 100 10 3 "not as described" scTxCompleted _ _ h
  exact ⟨C6_file_dispute_spec.1 300000 10 3 "late delivery" scTx (by decide), h3, h5, h4⟩

/-! Inversion lemmas: what a successful instruction says about its inputs
and pins down about its outputs.  These are shared by the trace-level
theorems below. -/

lemma create_listing_ok {now : Int} {sk ek mint price : Nat} {cur : Currency}
    {rp : Option Nat} {b0 : Balances} {l : AgentListing} {e : Escrow} {b : Balances} :
    create_listing now sk ek mint price cur rp b0 = Except.ok (l, e, b) →
    l.status = ListingStatus.Active ∧
    e = { transaction := 0, amount := 0, currency := cur
          status := EscrowStatus.Active, release_time := 0, bump := 0 } := by
  intro h
  simp only [create_listing] at h
  split at h
  · simp only [Except.ok.injEq, Prod.mk.injEq] at h
    obtain ⟨h1, h2, h3⟩ := h
    subst h1; subst h2
    exact ⟨rfl, rfl⟩
  · exact absurd h (by simp)

lemma purchase_agent_ok {now : Int} {bk sk tk lk : Nat} {l0 : AgentListing}
    {e0 : Escrow} {b0 : Balances} {l : AgentListing} {e : Escrow}
    {t : Transaction} {b : Balances} :
    purchase_agent now bk sk tk lk l0 e0 b0 = Except.ok (l, e, t, b) →
    l0.status = ListingStatus.Active ∧ l = l0 ∧
    t = { buyer := bk, seller := sk, listing := lk, amount := l0.price
          currency := l0.currency, status := TransactionStatus.Pending
          created_at := now, completed_at := none
          escrow_release_time := now + 604800, dispute_deadline := now + 259200
          bump := 0 } ∧
    e = { e0 with transaction := tk, amount := l0.price, currency := l0.currency
                  release_time := now + 604800 } := by
  intro h
  simp only [purchase_agent] at h
  split at h
  · exact absurd h (by simp)
  · rename_i hact
    split at h
    · split at h
      · simp only [Except.ok.injEq, Prod.mk.injEq] at h
        obtain ⟨h1, h2, h3, h4⟩ := h
        subst h1; subst h2; subst h3
        refine ⟨not_not.mp hact, rfl, by norm_num, by norm_num⟩
      · exact absurd h (by simp)
    · exact absurd h (by simp)

lemma complete_transaction_ok {now : Int} {t0 : Transaction} {e0 : Escrow}
    {b0 : Balances} {t : Transaction} {e : Escrow} {b : Balances} :
    complete_transaction now t0 e0 b0 = Except.ok (t, e, b) →
    t0.status = TransactionStatus.Pending ∧ e0.release_time ≤ now ∧
    t = { t0 with status := TransactionStatus.Completed, completed_at := some now } ∧
    e = { e0 with status := EscrowStatus.Released } := by
  intro h
  simp only [complete_transaction] at h
  split at h
  · exact absurd h (by simp)
  · rename_i hst
    split at h
    · exact absurd h (by simp)
    · rename_i hrel
      split at h
      · simp only [Except.ok.injEq, Prod.mk.injEq] at h
        obtain ⟨h1, h2, h3⟩ := h
        subst h1; subst h2
        exact ⟨not_not.mp (by simpa using hst), not_lt.mp hrel, rfl, rfl⟩
      · exact absurd h (by simp)

lemma file_dispute_ok {now : Int} {ck tk : Nat} {r : String} {t0 : Transaction}
    {t : Transaction} {d : Dispute} :
    file_dispute now ck tk r t0 = Except.ok (t, d) →
    t0.status = TransactionStatus.Completed ∧ now ≤ t0.dispute_deadline ∧
    t = { t0 with status := TransactionStatus.Disputed } ∧
    d = { transaction := tk, complainant := ck, respondent := t0.seller
          reason := r, status := DisputeStatus.Filed, created_at := now
          resolved_at := none, resolution := none, bump := 0 } := by
  intro h
  simp only [file_dispute] at h
  split at h
  · exact absurd h (by simp)
  · rename_i hst
    split at h
    · exact absurd h (by simp)
    · rename_i hdl
      simp only [Except.ok.injEq, Prod.mk.injEq] at h
      obtain ⟨h1, h2⟩ := h
      subst h1; subst h2
      exact ⟨not_not.mp (by simpa using hst), not_lt.mp hdl, rfl, rfl⟩

lemma resolve_dispute_ok {now : Int} {res : String} {fav : Bool}
    {t0 : Transaction} {d0 : Dispute} {b0 : Balances}
    {t : Transaction} {d : Dispute} {b : Balances} :
    resolve_dispute now res fav t0 d0 b0 = Except.ok (t, d, b) →
    d0.status = DisputeStatus.UnderReview ∧ b = b0 := by
  intro h
  simp only [resolve_dispute] at h
  split at h
  · exact absurd h (by simp)
  · rename_i hst
    refine ⟨not_not.mp (by simpa using hst), ?_⟩
    split at h <;>
    · simp only [Except.ok.injEq, Prod.mk.injEq] at h
      exact h.2.2.symm

lemma release_escrow_ok {now : Int} {t0 : Transaction} {e0 : Escrow}
    {b0 : Balances} {t : Transaction} {e : Escrow} {b : Balances} :
    release_escrow now t0 e0 b0 = Except.ok (t, e, b) →
    e0.status = EscrowStatus.Active ∧ e0.release_time ≤ now ∧
    t = t0 ∧ e = { e0 with status := EscrowStatus.Released } := by
  intro h
  simp only [release_escrow] at h
  split at h
  · exact absurd h (by simp)
  · rename_i hst
    split at h
    · exact absurd h (by simp)
    · rename_i hrel
      split at h
      · simp only [Except.ok.injEq, Prod.mk.injEq] at h
        obtain ⟨h1, h2, h3⟩ := h
        subst h1; subst h2
        exact ⟨not_not.mp (by simpa using hst), not_lt.mp hrel, rfl, rfl⟩
      · exact absurd h (by simp)

lemma cancel_listing_ok {l0 : AgentListing} {b0 : Balances}
    {l : AgentListing} {b : Balances} :
    cancel_listing l0 b0 = Except.ok (l, b) →
    l0.status = ListingStatus.Active ∧
    l = { l0 with status := ListingStatus.Delisted } := by
  intro h
  simp only [cancel_listing] at h
  split at h
  · exact absurd h (by simp)
  · rename_i hst
    split at h
    · simp only [Except.ok.injEq, Prod.mk.injEq] at h
      obtain ⟨h1, h2⟩ := h
      subst h1
      exact ⟨not_not.mp (by simpa using hst), rfl⟩
    · exact absurd h (by simp)

/-! World-level inversion: what a committed call says about the starting
state, the instruction result, and the new state. -/

lemma exec_createListing_inv {now : Int} {sk ek mint price : Nat} {cur : Currency}
    {rp : Option Nat} {st st' : MarketState} :
    exec (Call.createListing now sk ek mint price cur rp) st = some (Except.ok st') →
    st.listing = none ∧ st.escrow = none ∧
    ∃ l e b, create_listing now sk ek mint price cur rp st.bal = Except.ok (l, e, b) ∧
      st' = { st with listing := some l, escrow := some e, bal := b, clock := now } := by
  intro h
  simp only [exec] at h
  split at h
  · rename_i hl he
    refine ⟨hl, he, ?_⟩
    split at h
    · rename_i l e b hc
      simp only [Option.some.injEq, Except.ok.injEq] at h
      exact ⟨l, e, b, hc, h.symm⟩
    · simp at h
  · simp at h

lemma exec_purchaseAgent_inv {now : Int} {bk sk tk lk : Nat} {st st' : MarketState} :
    exec (Call.purchaseAgent now bk sk tk lk) st = some (Except.ok st') →
    ∃ l0 e0, st.listing = some l0 ∧ st.escrow = some e0 ∧ st.transaction = none ∧
    ∃ l e t b, purchase_agent now bk sk tk lk l0 e0 st.bal = Except.ok (l, e, t, b) ∧
      st' = { st with listing := some l, escrow := some e, transaction := some t
                      bal := b, clock := now } := by
  intro h
  simp only [exec] at h
  split at h
  · rename_i l0 e0 hl he ht
    refine ⟨l0, e0, hl, he, ht, ?_⟩
    split at h
    · rename_i l e t b hc
      simp only [Option.some.injEq, Except.ok.injEq] at h
      exact ⟨l, e, t, b, hc, h.symm⟩
    · simp at h
  · simp at h

lemma exec_completeTransaction_inv {now : Int} {st st' : MarketState} :
    exec (Call.completeTransaction now) st = some (Except.ok st') →
    ∃ t0 e0, st.transaction = some t0 ∧ st.escrow = some e0 ∧
    ∃ t e b, complete_transaction now t0 e0 st.bal = Except.ok (t, e, b) ∧
      st' = { st with transaction := some t, escrow := some e, bal := b, clock := now } := by
  intro h
  simp only [exec] at h
  split at h
  · rename_i t0 e0 ht he
    refine ⟨t0, e0, ht, he, ?_⟩
    split at h
    · rename_i t e b hc
      simp only [Option.some.injEq, Except.ok.injEq] at h
      exact ⟨t, e, b, hc, h.symm⟩
    · simp at h
  · simp at h

lemma exec_fileDispute_inv {now : Int} {ck tk : Nat} {r : String} {st st' : MarketState} :
    exec (Call.fileDispute now ck tk r) st = some (Except.ok st') →
    ∃ t0, st.transaction = some t0 ∧ st.dispute = none ∧
    ∃ t d, file_dispute now ck tk r t0 = Except.ok (t, d) ∧
      st' = { st with transaction := some t, dispute := some d, clock := now } := by
  intro h
  simp only [exec] at h
  split at h
  · rename_i t0 ht hd
    refine ⟨t0, ht, hd, ?_⟩
    split at h
    · rename_i t d hc
      simp only [Option.some.injEq, Except.ok.injEq] at h
      exact ⟨t, d, hc, h.symm⟩
    · simp at h
  · simp at h

lemma exec_resolveDispute_inv {now : Int} {res : String} {fav : Bool}
    {st st' : MarketState} :
    exec (Call.resolveDispute now res fav) st = some (Except.ok st') →
    ∃ t0 d0, st.transaction = some t0 ∧ st.dispute = some d0 ∧
    ∃ t d b, resolve_dispute now res fav t0 d0 st.bal = Except.ok (t, d, b) ∧
      st' = { st with transaction := some t, dispute := some d, bal := b, clock := now } := by
  intro h
  simp only [exec] at h
  split at h
  · rename_i t0 d0 ht hd
    refine ⟨t0, d0, ht, hd, ?_⟩
    split at h
    · rename_i t d b hc
      simp only [Option.some.injEq, Except.ok.injEq] at h
      exact ⟨t, d, b, hc, h.symm⟩
    · simp at h
  · simp at h

lemma exec_releaseEscrow_inv {now : Int} {st st' : MarketState} :
    exec (Call.releaseEscrow now) st = some (Except.ok st') →
    ∃ t0 e0, st.transaction = some t0 ∧ st.escrow = some e0 ∧
    ∃ t e b, release_escrow now t0 e0 st.bal = Except.ok (t, e, b) ∧
      st' = { st with transaction := some t, escrow := some e, bal := b, clock := now } := by
  intro h
  simp only [exec] at h
  split at h
  · rename_i t0 e0 ht he
    refine ⟨t0, e0, ht, he, ?_⟩
    split at h
    · rename_i t e b hc
      simp only [Option.some.injEq, Except.ok.injEq] at h
      exact ⟨t, e, b, hc, h.symm⟩
    · simp at h
  · simp at h

lemma exec_cancelListing_inv {now : Int} {st st' : MarketState} :
    exec (Call.cancelListing now) st = some (Except.ok st') →
    ∃ l0, st.listing = some l0 ∧
    ∃ l b, cancel_listing l0 st.bal = Except.ok (l, b) ∧
      st' = { st with listing := some l, bal := b, clock := now } := by
  intro h
  simp only [exec] at h
  split at h
  · rename_i l0 hl
    refine ⟨l0, hl, ?_⟩
    split at h
    · rename_i l b hc
      simp only [Option.some.injEq, Except.ok.injEq] at h
      exact ⟨l, b, hc, h.symm⟩
    · simp at h
  · simp at h

/-- The inductive invariant of the reachable states: every transaction was
created by `purchase_agent` (so its dispute deadline sits 259200 seconds
after its creation), a Completed transaction was completed no earlier than
259200 + 345600 seconds after creation, every dispute is still Filed, the
escrow's release time agrees with its transaction's creation time, and a
transaction never exists without its escrow. -/
structure CoreInv (st : MarketState) : Prop where
  tx_deadline : ∀ tx, st.transaction = some tx →
    tx.dispute_deadline = tx.created_at + 259200
  tx_completed : ∀ tx, st.transaction = some tx →
    tx.status = TransactionStatus.Completed → tx.created_at + 604800 ≤ st.clock
  disp_filed : ∀ d, st.dispute = some d → d.status = DisputeStatus.Filed
  esc_release : ∀ tx e, st.transaction = some tx → st.escrow = some e →
    e.release_time = tx.created_at + 604800
  tx_escrow : st.transaction.isSome → st.escrow.isSome

lemma coreInv_init (t0 : Int) (b0 : Balances) : CoreInv (initState t0 b0) := by
  constructor <;> intros <;> simp_all [initState]

lemma coreInv_step {st st' : MarketState} (hinv : CoreInv st) (hstep : Step st st') :
    CoreInv st' := by
  obtain ⟨c, hc, hexec⟩ := hstep
  cases c with
  | createListing now sk ek mint price cur rp =>
    simp only [Call.now] at hc
    obtain ⟨hl, he, l, e, b, hcall, hst'⟩ := exec_createListing_inv hexec
    subst hst'
    have htx : st.transaction = none := by
      cases htxq : st.transaction with
      | none => rfl
      | some tx =>
        have := hinv.tx_escrow (by simp [htxq])
        simp [he] at this
    constructor
    · intro tx h; simp [htx] at h
    · intro tx h; simp [htx] at h
    · intro d h
      exact hinv.disp_filed d (by simpa using h)
    · intro tx e'' h1 h2; simp [htx] at h1
    · intro h; simp [htx] at h
  | purchaseAgent now bk sk tk lk =>
    simp only [Call.now] at hc
    obtain ⟨l0, e0, hl, he, ht, l, e, t, b, hcall, hst'⟩ := exec_purchaseAgent_inv hexec
    subst hst'
    obtain ⟨hact, hleq, hteq, heeq⟩ := purchase_agent_ok hcall
    constructor
    · intro tx h
      simp only [Option.some.injEq] at h
      subst h
      rw [hteq]
    · intro tx h hcomp
      simp only [Option.some.injEq] at h
      subst h
      rw [hteq] at hcomp
      simp at hcomp
    · intro d h
      exact hinv.disp_filed d (by simpa using h)
    · intro tx e'' h1 h2
      simp only [Option.some.injEq] at h1 h2
      subst h1; subst h2
      rw [hteq, heeq]
    · intro h; simp
  | completeTransaction now =>
    simp only [Call.now] at hc
    obtain ⟨t0, e0, ht, he, t, e, b, hcall, hst'⟩ := exec_completeTransaction_inv hexec
    subst hst'
    obtain ⟨hpend, hrel, hteq, heeq⟩ := complete_transaction_ok hcall
    have hrt : e0.release_time = t0.created_at + 604800 := hinv.esc_release t0 e0 ht he
    constructor
    · intro tx h
      simp only [Option.some.injEq] at h
      subst h
      rw [hteq]
      exact hinv.tx_deadline t0 ht
    · intro tx h hcomp
      simp only [Option.some.injEq] at h
      subst h
      rw [hteq]
      simp only
      rw [hrt] at hrel
      simpa using hrel
    · intro d h
      exact hinv.disp_filed d (by simpa using h)
    · intro tx e'' h1 h2
      simp only [Option.some.injEq] at h1 h2
      subst h1; subst h2
      rw [hteq, heeq]
      simpa using hrt
    · intro h; simp
  | fileDispute now ck tk r =>
    simp only [Call.now] at hc
    obtain ⟨t0, ht, hd, t, d, hcall, hst'⟩ := exec_fileDispute_inv hexec
    obtain ⟨hcomp, hdl, hteq, hdeq⟩ := file_dispute_ok hcall
    have h1 : t0.created_at + 604800 ≤ st.clock := hinv.tx_completed t0 ht hcomp
    have h2 : t0.dispute_deadline = t0.created_at + 259200 := hinv.tx_deadline t0 ht
    omega
  | resolveDispute now res fav =>
    simp only [Call.now] at hc
    obtain ⟨t0, d0, ht, hd, t, d, b, hcall, hst'⟩ := exec_resolveDispute_inv hexec
    obtain ⟨hur, -⟩ := resolve_dispute_ok hcall
    have := hinv.disp_filed d0 hd
    rw [hur] at this
    exact absurd this (by simp)
  | releaseEscrow now =>
    simp only [Call.now] at hc
    obtain ⟨t0, e0, ht, he, t, e, b, hcall, hst'⟩ := exec_releaseEscrow_inv hexec
    subst hst'
    obtain ⟨hact, hrel, hteq, heeq⟩ := release_escrow_ok hcall
    subst hteq
    constructor
    · intro tx h
      simp only [Option.some.injEq] at h
      subst h
      exact hinv.tx_deadline _ ht
    · intro tx h hcomp
      simp only [Option.some.injEq] at h
      subst h
      exact le_trans (hinv.tx_completed _ ht hcomp) hc
    · intro d h
      exact hinv.disp_filed d (by simpa using h)
    · intro tx e'' h1 h2
      simp only [Option.some.injEq] at h1 h2
      subst h1; subst h2
      rw [heeq]
      simpa using hinv.esc_release _ e0 ht he
    · intro h; simp
  | cancelListing now =>
    simp only [Call.now] at hc
    obtain ⟨l0, hl, l, b, hcall, hst'⟩ := exec_cancelListing_inv hexec
    subst hst'
    constructor
    · intro tx h
      exact hinv.tx_deadline tx (by simpa using h)
    · intro tx h hcomp
      calc tx.created_at + 604800 ≤ st.clock :=
            hinv.tx_completed tx (by simpa using h) hcomp
        _ ≤ now := hc
    · intro d h
      exact hinv.disp_filed d (by simpa using h)
    · intro tx e'' h1 h2
      exact hinv.esc_release tx e'' (by simpa using h1) (by simpa using h2)
    · intro h
      simpa using hinv.tx_escrow (by simpa using h)

lemma coreInv_reachable {t0 : Int} {b0 : Balances} {st : MarketState}
    (h : Reachable t0 b0 st) : CoreInv st := by
  induction h with
  | init => exact coreInv_init t0 b0
  | step _ hstep ih => exact coreInv_step ih hstep

/-- C7.  In every state reachable by the core operations under the monotone
clock, a `file_dispute` call can never commit: it either signals an error
(on a non-Completed transaction its status gate fails; on a Completed one
the completion happened no earlier than 604800 seconds after creation, past
the 259200-second dispute deadline, so the deadline gate fails) or its
required accounts do not exist. -/
theorem C7_file_dispute_never_succeeds :
    ∀ (t0 : Int) (b0 : Balances) (st : MarketState), Reachable t0 b0 st →
    ∀ (now : Int) (ck tk : Nat) (r : String), st.clock ≤ now →
    (∃ err, exec (Call.fileDispute now ck tk r) st = some (Except.error err)) ∨
    exec (Call.fileDispute now ck tk r) st = none := by
  intro t0 b0 st hr now ck tk r hnow
  have hinv := coreInv_reachable hr
  cases ht : st.transaction with
  | none => right; simp [exec, ht]
  | some tx =>
    cases hd : st.dispute with
    | some d => right; simp [exec, ht, hd]
    | none =>
      left
      by_cases hcomp : tx.status = TransactionStatus.Completed
      · have h1 := hinv.tx_completed tx ht hcomp
        have h2 := hinv.tx_deadline tx ht
        have hlt : tx.dispute_deadline < now := by omega
        exact ⟨MarketplaceError.InvalidDisputeStatus,
          by simp [exec, ht, hd, file_dispute, hcomp, hlt]⟩
      · exact ⟨MarketplaceError.TransactionAlreadyCompleted,
          by simp [exec, ht, hd, file_dispute, hcomp]⟩

/-- Balances a buyer (2000 currency) and seller (1 NFT) start with in the
witness trace. -/
def wBal : Balances :=
  { buyerCur := 2000, sellerCur := 0, escrowCur := 0
    buyerNft := 0, sellerNft := 1, escrowNft := 0 }

/-- The witness trace state after `create_listing` at t = 0. -/
def wSt1 : MarketState :=
  { listing := some scListing, escrow := some scEsc0
    transaction := none, dispute := none
    bal := { buyerCur := 2000, sellerCur := 0, escrowCur := 0
             buyerNft := 0, sellerNft := 0, escrowNft := 1 }
    clock := 0 }

/-- The witness trace state after `purchase_agent` at t = 0. -/
def wSt2 : MarketState :=
  { listing := some scListing, escrow := some scEsc
    transaction := some scTx, dispute := none
    bal := { buyerCur := 1000, sellerCur := 0, escrowCur := 1000
             buyerNft := 1, sellerNft := 0, escrowNft := 0 }
    clock := 0 }

/-- Witness for C7: on the concretely reachable state holding the pending
t = 0 purchase, the spec's t = 300000 `file_dispute` call cannot commit. -/
theorem C7_file_dispute_never_succeeds_witness :
    (∃ err, exec (Call.fileDispute 300000 10 3 "late delivery") wSt2 =
      some (Except.error err)) ∨
    exec (Call.fileDispute 300000 10 3 "late delivery") wSt2 = none := by
  have h1 : Reachable 0 wBal wSt1 :=
    Reachable.step Reachable.init
      ⟨Call.createListing 0 11 2 7 1000 Currency.SOL none, by decide, by decide⟩
  have h2 : Reachable 0 wBal wSt2 :=
    Reachable.step h1 ⟨Call.purchaseAgent 0 10 11 3 1, by decide, by decide⟩
  exact C7_file_dispute_never_succeeds 0 wBal wSt2 h2 300000 10 3 "late delivery"
    (by decide)

/-- C8.  Disputes are created Filed by `file_dispute`, no reachable state
holds an UnderReview dispute, and on any dispute that is not UnderReview —
so on every dispute a core operation can produce — `resolve_dispute` fails
with `InvalidDisputeStatus`. -/
theorem C8_no_under_review_dispute :
    (∀ (now : Int) (ck tk : Nat) (r : String) (t0 t : Transaction) (d : Dispute),
       file_dispute now ck tk r t0 = Except.ok (t, d) →
       d.status = DisputeStatus.Filed) ∧
    (∀ (t0 : Int) (b0 : Balances) (st : MarketState), Reachable t0 b0 st →
       ∀ d, st.dispute = some d → d.status ≠ DisputeStatus.UnderReview) ∧
    (∀ (now : Int) (res : String) (fav : Bool) (t : Transaction) (d : Dispute)
       (b : Balances), d.status ≠ DisputeStatus.UnderReview →
       resolve_dispute now res fav t d b =
         Except.error MarketplaceError.InvalidDisputeStatus) := by
  refine ⟨?_, ?_, ?_⟩
  · intro now ck tk r t0 t d h
    obtain ⟨-, -, -, hdeq⟩ := file_dispute_ok h
    rw [hdeq]
  · intro t0 b0 st hr d hd
    have := (coreInv_reachable hr).disp_filed d hd
    rw [this]
    simp
  · intro now res fav t d b h
    simp [resolve_dispute, h]

/-- Witness for C8: the concrete dispute filed at t = 100 is Filed, and
`resolve_dispute` on it fails with `InvalidDisputeStatus`. -/
theorem C8_no_under_review_dispute_witness :
    scDisputeFiled.status = DisputeStatus.Filed ∧
    resolve_dispute 200 "refund the buyer" true scTxDisputed scDisputeFiled scBalExact =
      Except.error MarketplaceError.InvalidDisputeStatus :=
  ⟨C8_no_under_review_dispute.1 100 10 3 "not as described" scTxCompleted
      { scTxCompleted with status := TransactionStatus.Disputed } scDisputeFiled
      (by decide),
   C8_no_under_review_dispute.2.2 200 "refund the buyer" true scTxDisputed
      scDisputeFiled scBalExact (by decide)⟩

/-- C9.  Escrow status transitions out of Active are terminal: no committed
core call ever turns an escrow whose status is not Active back into an
Active one (creation only initializes a not-yet-existing escrow; the other
operations either leave the status alone, set it to Released, or require it
to still be Active). -/
theorem C9_escrow_exit_terminal :
    ∀ (st st' : MarketState), Step st st' →
    ∀ e, st.escrow = some e → e.status ≠ EscrowStatus.Active →
    ∃ e', st'.escrow = some e' ∧ e'.status ≠ EscrowStatus.Active := by
  rintro st st' ⟨c, hc, hexec⟩ e he hna
  cases c with
  | createListing now sk ek mint price cur rp =>
    obtain ⟨-, he0, -⟩ := exec_createListing_inv hexec
    rw [he0] at he
    exact absurd he (by simp)
  | purchaseAgent now bk sk tk lk =>
    obtain ⟨l0, e0, hl, he0, ht, l, e1, t, b, hcall, hst'⟩ := exec_purchaseAgent_inv hexec
    subst hst'
    obtain ⟨-, -, -, heeq⟩ := purchase_agent_ok hcall
    rw [he] at he0
    have he0e : e0 = e := (Option.some.inj he0).symm
    subst he0e
    refine ⟨e1, by simp, ?_⟩
    rw [heeq]
    simpa using hna
  | completeTransaction now =>
    obtain ⟨t0, e0, ht, he0, t, e1, b, hcall, hst'⟩ := exec_completeTransaction_inv hexec
    subst hst'
    obtain ⟨-, -, -, heeq⟩ := complete_transaction_ok hcall
    refine ⟨e1, by simp, ?_⟩
    rw [heeq]
    simp
  | fileDispute now ck tk r =>
    obtain ⟨t0, ht, hd, t, d, hcall, hst'⟩ := exec_fileDispute_inv hexec
    subst hst'
    exact ⟨e, by simpa using he, hna⟩
  | resolveDispute now res fav =>
    obtain ⟨t0, d0, ht, hd, t, d, b, hcall, hst'⟩ := exec_resolveDispute_inv hexec
    subst hst'
    exact ⟨e, by simpa using he, hna⟩
  | releaseEscrow now =>
    obtain ⟨t0, e0, ht, he0, t, e1, b, hcall, hst'⟩ := exec_releaseEscrow_inv hexec
    obtain ⟨hact, -, -, -⟩ := release_escrow_ok hcall
    rw [he] at he0
    have he0e : e0 = e := (Option.some.inj he0).symm
    rw [he0e] at hact
    exact absurd hact hna
  | cancelListing now =>
    obtain ⟨l0, hl, l, b, hcall, hst'⟩ := exec_cancelListing_inv hexec
    subst hst'
    exact ⟨e, by simpa using he, hna⟩

/-- A state whose escrow has already been Released while its transaction is
still Pending (as `release_escrow` leaves things). -/
def wStRel : MarketState :=
  { listing := none, escrow := some scEscR, transaction := some scTx
    dispute := none, bal := scBalExact, clock := 604800 }

/-- `wStRel` after `complete_transaction` commits on it at t = 604800. -/
def wStRelPost : MarketState :=
  { listing := none
    escrow := some scEscR
    transaction :=
      some { scTx with status := TransactionStatus.Completed
                       completed_at := some 604800 }
    dispute := none
    bal := { buyerCur := 0, sellerCur := 1000, escrowCur := 0
             buyerNft := 1, sellerNft := 0, escrowNft := 0 }
    clock := 604800 }

/-- Witness for C9: a concrete committed step from a state whose escrow is
already Released still leaves the escrow in a non-Active status. -/
theorem C9_escrow_exit_terminal_witness :
    ∃ e', wStRelPost.escrow = some e' ∧ e'.status ≠ EscrowStatus.Active :=
  C9_escrow_exit_terminal wStRel wStRelPost
    ⟨Call.completeTransaction 604800, by decide, by decide⟩
    scEscR rfl (by decide)

/-- Balances in which the escrow token account is empty, so the
`complete_transaction` gateway transfer must fail after the status writes. -/
def c10Bal : Balances :=
  { buyerCur := 0, sellerCur := 0, escrowCur := 0
    buyerNft := 1, sellerNft := 0, escrowNft := 0 }

/-- A state on which `complete_transaction` passes both of its status/time
gates and then fails at the gateway transfer. -/
def c10St : MarketState :=
  { listing := none, escrow := some scEsc, transaction := some scTx
    dispute := none, bal := c10Bal, clock := 0 }

/-- C10.  A core call that signals an error leaves the observable state
exactly as it started — all record writes and gateway transfers of the call
are discarded together (the all-or-nothing instruction commit of the
platform, spec §7, which the `Except`-style embedding encodes); in
particular the concrete `complete_transaction` call whose gateway transfer
fails after its status writes leaves the Pending/Active state behind
unchanged. -/
theorem C10_error_no_partial_commit :
    (∀ (c : Call) (st : MarketState) (er : MarketplaceError),
       exec c st = some (Except.error er) → run c st = st) ∧
    exec (Call.completeTransaction 700000) c10St =
      some (Except.error MarketplaceError.InsufficientFunds) ∧
    run (Call.completeTransaction 700000) c10St = c10St := by
  refine ⟨?_, by decide, by decide⟩
  intro c st er h
  simp [run, h]

/-- Witness for C10: the unchanged-state conclusion applied at the concrete
failing `complete_transaction` call. -/
theorem C10_error_no_partial_commit_witness :
    run (Call.completeTransaction 700000) c10St = c10St :=
  C10_error_no_partial_commit.1 (Call.completeTransaction 700000) c10St
    MarketplaceError.InsufficientFunds (by decide)

end AxiomMarket
